import Mathlib

/-!
Shallow embedding of the video-downloader backend (`src/Node.js`, an Express
server) and proofs about its route handlers.

External calls (the `ytdl` extraction library, `instagramGetUrl`, `fetch`)
are modelled by parameters holding the value or error the awaited call would
produce, so each handler becomes a pure function from the request body and
the upstream outcome to a response (or to a trace of response actions for
the streaming endpoints).
-/

/-- Minimal JSON value model for response bodies built by `res.json`. -/
inductive J where
  | s (v : String)
  | i (v : Int)
  | b (v : Bool)
  | arr (vs : List J)
  | obj (fields : List (String × J))

/-- Field lookup on a JSON object: first binding of the key, `none` on
non-objects. -/
def J.getField : J → String → Option J
  | .obj fs, k => fs.lookup k
  | _, _ => none

/-- Whether a JSON value is an object carrying field `k`. -/
def J.hasField (j : J) (k : String) : Bool :=
  (j.getField k).isSome

/-- An HTTP JSON response: status code plus body. -/
structure Rsp where
  status : Nat
  body : J

/-- A JavaScript `Error` object (only `message` is read by the handlers). -/
structure ErrObj where
  message : String

/-- Result of running an info handler: the response sent, plus whether the
upstream extractor call was reached. -/
structure HandlerRun where
  rsp : Rsp
  extractorCalled : Bool

/-- JS truthiness of an optional string: `undefined`/`null` and `""` are
falsy, every other string is truthy.  Models `!url` on a request field. -/
def jsTruthy : Option String → Bool
  | none => false
  | some s => !(s == "")

/-- `listPrefix n h` — `n` is a prefix of `h` (char-by-char). -/
def listPrefix : List Char → List Char → Bool
  | [], _ => true
  | _ :: _, [] => false
  | a :: as, b :: bs => a == b && listPrefix as bs

/-- `listInfix n h` — `n` occurs contiguously inside `h`. -/
def listInfix : List Char → List Char → Bool
  | n, [] => n.isEmpty
  | n, b :: bs => listPrefix n (b :: bs) || listInfix n bs

/-- Models JavaScript `s.includes(sub)` (contiguous substring test). -/
def jsIncludes (s sub : String) : Bool :=
  listInfix sub.data s.data

/-! ## YouTube data model (shapes read off the `ytdl` library's output) -/

structure Thumbnail where
  url : String

structure Author where
  name : String

structure VideoDetails where
  title : String
  thumbnails : List Thumbnail
  lengthSeconds : String
  author : Author

/-- One entry of `info.formats` (the fields the server reads). -/
structure YFormat where
  itag : Int
  qualityLabel : Option String
  quality : String
  container : String
  contentLength : Option String
  hasAudio : Bool
  hasVideo : Bool

structure YInfo where
  videoDetails : VideoDetails
  formats : List YFormat

/-- One element of the `qualities` array built by `/api/youtube/info`. -/
structure Quality where
  itag : Int
  quality : String
  format : String
  size : String
  hasAudio : Bool
  hasVideo : Bool
deriving DecidableEq

/-! ## Quality normalizer: resolution parsing, dedup filter, sort -/

/-- Numeric value of a digit run (as captured by `(\d+)` then `parseInt`). -/
def digitsVal (ds : List Char) : Nat :=
  ds.foldl (fun acc c => acc * 10 + (c.toNat - 48)) 0

/-- First match of the regex `(\d+)p` in a char list: at each start
position, a greedy digit run must be followed immediately by `p`; on
failure the start advances one character (JS regex left-to-right scan).
Returns the captured number. -/
def resMatch : List Char → Option Nat
  | [] => none
  | c :: cs =>
    if c.isDigit then
      match (c :: cs).dropWhile Char.isDigit with
      | 'p' :: _ => some (digitsVal ((c :: cs).takeWhile Char.isDigit))
      | _ => resMatch cs
    else
      resMatch cs

/-- `getResolution` from the sort comparator: the number before `p` in the
quality label, or `0` when the regex does not match. -/
def getResolution (q : Quality) : Nat :=
  match resMatch q.quality.data with
  | some n => n
  | none => 0

/-- The dedup filter
`qualities.filter((q, i, self) => i === self.findIndex(r => r.quality === q.quality))`:
keep the element at index `i` iff `i` is the first index whose element has
the same `quality` label.  `self` is always the whole original array. -/
def uniqueQualities (self : List Quality) : List Quality :=
  (self.enum.filter
    (fun p => self.findIdx (fun r => r.quality == p.2.quality) == p.1)).map Prod.snd

/-- Stable insert for the descending sort: `x` goes before the first
element whose resolution is `≤` its own, so equal keys keep input order. -/
def insertDesc (x : Quality) : List Quality → List Quality
  | [] => [x]
  | y :: ys =>
    if getResolution y ≤ getResolution x then x :: y :: ys
    else y :: insertDesc x ys

/-- The sort `(a, b) => getResolution(b) - getResolution(a)`: a stable sort
descending by `getResolution` (ECMAScript guarantees `Array.prototype.sort`
is stable, and this comparator is consistent with the key). -/
def sortQualities : List Quality → List Quality
  | [] => []
  | x :: xs => insertDesc x (sortQualities xs)

/-! ## YouTube info endpoint -/

/-- Models the library call `ytdl.filterFormats(formats, 'videoandaudio')`:
keeps formats that have both audio and video (the library's documented
behaviour for that filter name). -/
def filterVideoAndAudio (fs : List YFormat) : List YFormat :=
  fs.filter (fun f => f.hasAudio && f.hasVideo)

/-- The `size` string of a quality entry:
`format.contentLength ? parseInt(...)/(1024*1024)).toFixed(2) + ' MB' : 'Unknown'`.
The numeric rendering of `toFixed(2)` is abstracted as `renderMB` (IEEE-754
decimal formatting; no claim depends on the digits). -/
def sizeField (renderMB : String → String) (cl : Option String) : String :=
  match cl with
  | none => "Unknown"
  | some s => if s == "" then "Unknown" else renderMB s ++ " MB"

/-- The per-format mapping building a quality entry in `/api/youtube/info`.
`format.qualityLabel || format.quality` takes `quality` when `qualityLabel`
is absent or the empty string. -/
def formatToQuality (renderMB : String → String) (f : YFormat) : Quality :=
  { itag := f.itag
    quality :=
      match f.qualityLabel with
      | none => f.quality
      | some l => if l == "" then f.quality else l
    format := f.container
    size := sizeField renderMB f.contentLength
    hasAudio := f.hasAudio
    hasVideo := f.hasVideo }

/-- JSON encoding of one quality entry of the YouTube info response. -/
def qualityToJ (q : Quality) : J :=
  .obj [("itag", .i q.itag), ("quality", .s q.quality), ("format", .s q.format),
        ("size", .s q.size), ("hasAudio", .b q.hasAudio), ("hasVideo", .b q.hasVideo)]

/-- `POST /api/youtube/info`.  `validateURL` stands for the external
`ytdl.validateURL`; `extract` holds the outcome the awaited `ytdl.getInfo`
would produce (`Except.error` when it throws). -/
def youtubeInfo (validateURL : String → Bool) (renderMB : String → String)
    (url : Option String) (extract : Except ErrObj YInfo) : HandlerRun :=
  if !(jsTruthy url && validateURL (url.getD "")) then
    { rsp := { status := 400, body := .obj [("error", .s "Invalid YouTube URL")] }
      extractorCalled := false }
  else
    match extract with
    | .error e =>
      { rsp := { status := 500
                 body := .obj [("error", .s "Failed to fetch video information"),
                               ("details", .s e.message)] }
        extractorCalled := true }
    | .ok info =>
      match info.videoDetails.thumbnails.getLast? with
      | none =>
        -- `thumbnails[thumbnails.length - 1].url` throws a TypeError on an
        -- empty array; the route's catch turns it into the same 500 shape.
        { rsp := { status := 500
                   body := .obj [("error", .s "Failed to fetch video information"),
                                 ("details",
                                  .s "Cannot read properties of undefined (reading 'url')")] }
          extractorCalled := true }
      | some thumb =>
        { rsp := { status := 200
                   body := .obj
                     [("success", .b true),
                      ("title", .s info.videoDetails.title),
                      ("thumbnail", .s thumb.url),
                      ("duration", .s info.videoDetails.lengthSeconds),
                      ("author", .s info.videoDetails.author.name),
                      ("qualities",
                       .arr ((sortQualities (uniqueQualities
                         ((filterVideoAndAudio info.formats).map
                           (formatToQuality renderMB)))).map qualityToJ))] }
          extractorCalled := true }

/-! ## Instagram info endpoint -/

/-- Shape of a (non-null) `instagramGetUrl` result as read by the server:
`url_list` and `thumbnail` may each be absent. -/
structure IgResult where
  url_list : Option (List String)
  thumbnail : Option String

/-- Position-based quality label of the Instagram qualities mapping:
`index === 0 ? '1080p (Full HD)' : index === 1 ? '720p (HD)' : '480p'`. -/
def igLabel (i : Nat) : String :=
  if i == 0 then "1080p (Full HD)" else if i == 1 then "720p (HD)" else "480p"

/-- JSON encoding of `result.url_list.map((urlItem, index) => ...)`. -/
def igQualitiesJ (us : List String) : List J :=
  us.enum.map (fun p =>
    .obj [("url", .s p.2), ("quality", .s (igLabel p.1)),
          ("format", .s "mp4"), ("size", .s "Unknown")])

/-- The `thumbnail` field value: `result.thumbnail || result.url_list[0]`
(falsy `thumbnail` falls back to the first stream URL; `none` when both are
missing, in which case `res.json` omits the key). -/
def igThumbField (r : IgResult) (us : List String) : Option String :=
  match r.thumbnail with
  | some t => if t == "" then us.head? else some t
  | none => us.head?

/-- `POST /api/instagram/info`.  `extract` holds the outcome of the awaited
`instagramGetUrl(url)`; `Except.ok none` models a null/undefined result. -/
def instagramInfo (url : Option String)
    (extract : Except ErrObj (Option IgResult)) : HandlerRun :=
  if !(jsTruthy url && jsIncludes (url.getD "") "instagram.com") then
    { rsp := { status := 400, body := .obj [("error", .s "Invalid Instagram URL")] }
      extractorCalled := false }
  else
    match extract with
    | .error e =>
      { rsp := { status := 500
                 body := .obj [("error", .s "Failed to fetch Instagram video"),
                               ("details", .s e.message)] }
        extractorCalled := true }
    | .ok none =>
      { rsp := { status := 404, body := .obj [("error", .s "Could not fetch Instagram video")] }
        extractorCalled := true }
    | .ok (some r) =>
      match r.url_list with
      | none =>
        { rsp := { status := 404
                   body := .obj [("error", .s "Could not fetch Instagram video")] }
          extractorCalled := true }
      | some us =>
        { rsp := { status := 200
                   body := .obj
                     ([("success", .b true)] ++
                      (match igThumbField r us with
                       | some t => [("thumbnail", J.s t)]
                       | none => []) ++
                      [("qualities", .arr (igQualitiesJ us))]) }
          extractorCalled := true }

/-! ## Download endpoints, modelled as traces of response actions -/

/-- One observable action performed on the response (or outbound fetch). -/
inductive Act where
  | hset (k v : String)
  | jsonRes (status : Nat) (body : J)
  | sendBytes (bytes : List Nat)
  | pipeStart
  | fetchUrl (u : String)

/-- Whether an action writes a JSON body (`res.status(..).json(..)`). -/
def Act.isJson : Act → Bool
  | .jsonRes _ _ => true
  | _ => false

/-- `noJsonAfterSend sent tr` — in trace `tr`, no JSON body is written once
response bytes have started flowing (`sent` carries `res.headersSent` in). -/
def noJsonAfterSend (sent : Bool) : List Act → Bool
  | [] => true
  | .jsonRes _ _ :: rest => !sent && noJsonAfterSend sent rest
  | .sendBytes _ :: rest => noJsonAfterSend true rest
  | .pipeStart :: rest => noJsonAfterSend true rest
  | _ :: rest => noJsonAfterSend sent rest

/-- Trace has a `res.header(k, v)` call with exactly this key and value. -/
def hasHeader (tr : List Act) (k v : String) : Bool :=
  tr.any (fun a =>
    match a with
    | .hset hk hv => hk == k && hv == v
    | _ => false)

/-- The `videoStream.on('error', ...)` handler of `/api/youtube/download`:
writes the 500 JSON only when `!res.headersSent`. -/
def ytStreamErrorHandler (headersSent : Bool) (e : ErrObj) : List Act :=
  if headersSent then []
  else [.jsonRes 500 (.obj [("error", .s "Download failed"), ("details", .s e.message)])]

/-- The `catch` block of `/api/youtube/download`: writes the 500 JSON only
when `!res.headersSent`. -/
def ytCatchHandler (headersSent : Bool) (e : ErrObj) : List Act :=
  if headersSent then []
  else [.jsonRes 500 (.obj [("error", .s "Failed to download video"), ("details", .s e.message)])]

/-- The `catch` block of `/api/instagram/download`: writes the 500 JSON
unconditionally (no `headersSent` check in the source). -/
def igCatchHandler (_headersSent : Bool) (e : ErrObj) : List Act :=
  [.jsonRes 500 (.obj [("error", .s "Failed to download video"), ("details", .s e.message)])]

/-- JS character class `\w` (`[A-Za-z0-9_]`). -/
def jsWordChar (c : Char) : Bool :=
  c.isAlpha || c.isDigit || c == '_'

/-- JS character class `\s` (ASCII whitespace plus the Unicode space
characters the ECMAScript spec lists). -/
def jsWhitespace (c : Char) : Bool :=
  c == ' ' || c == '\t' || c == '\n' || c == '\x0b' || c == '\x0c' || c == '\r' ||
  c.toNat == 0xa0 || c.toNat == 0x1680 ||
  (0x2000 ≤ c.toNat && c.toNat ≤ 0x200a) ||
  c.toNat == 0x2028 || c.toNat == 0x2029 || c.toNat == 0x202f ||
  c.toNat == 0x205f || c.toNat == 0x3000 || c.toNat == 0xfeff

/-- `title.replace(/[^\w\s]/gi, '')`: drop every character that is neither
a word character nor whitespace. -/
def sanitizeTitle (t : String) : String :=
  String.mk (t.data.filter (fun c => jsWordChar c || jsWhitespace c))

/-- `POST /api/youtube/download` up to the start of streaming.  `extract`
is the outcome of the awaited `ytdl.getInfo(url)`; on success the handler
sets both headers and begins piping (later stream errors are delivered to
`ytStreamErrorHandler` with the then-current `headersSent`). -/
def ytDownload (validateURL : String → Bool) (url : Option String)
    (itag : Option Int) (extract : Except ErrObj YInfo) : List Act :=
  if !(jsTruthy url && validateURL (url.getD "")) then
    [.jsonRes 400 (.obj [("error", .s "Invalid YouTube URL")])]
  else
    match extract with
    | .error e => ytCatchHandler false e
    | .ok info =>
      [.hset "Content-Disposition"
         ("attachment; filename=\"" ++ sanitizeTitle info.videoDetails.title ++ ".mp4\""),
       .hset "Content-Type" "video/mp4",
       .pipeStart]

/-- Outcome of the awaited `fetch(qualityUrl)` in `/api/instagram/download`:
the fetch itself may throw; otherwise the response has an `ok` flag and
`arrayBuffer()` may throw or yield the bytes. -/
inductive FetchOutcome where
  | fthrow (e : ErrObj)
  | fresp (ok : Bool) (buffer : Except ErrObj (List Nat))

/-- `POST /api/instagram/download`.  Destructures `{url, qualityUrl}` from
the body but uses only `qualityUrl`; buffers the whole fetched body, then
sets headers and sends.  Every throw happens before any header is written,
and the catch is `igCatchHandler` (run with `headersSent = false` there). -/
def igDownload (url : Option String) (qualityUrl : Option String)
    (fetchF : String → FetchOutcome) : List Act :=
  if !(jsTruthy qualityUrl) then
    [.jsonRes 400 (.obj [("error", .s "Quality URL is required")])]
  else
    let qu := qualityUrl.getD ""
    .fetchUrl qu ::
      (match fetchF qu with
       | .fthrow e => igCatchHandler false e
       | .fresp ok buffer =>
         if ok then
           match buffer with
           | .error e => igCatchHandler false e
           | .ok bytes =>
             [.hset "Content-Disposition" "attachment; filename=\"instagram_video.mp4\"",
              .hset "Content-Type" "video/mp4",
              .sendBytes bytes]
         else igCatchHandler false { message := "Failed to fetch video" })

/-- `GET /health`: constant 200 JSON, independent of the request. -/
def healthHandler (_req : Unit) : Rsp :=
  { status := 200
    body := .obj [("status", .s "OK"), ("message", .s "Video Downloader API is running")] }

/-! ## Claim theorems -/

/-- C10: every `GET /health` request gets status 200 with a JSON body whose
`status` field is `"OK"` and which has a `message` field; the handler has no
state, so this is independent of every other endpoint. -/
theorem healthHandler_always_ok (r : Unit) :
    (healthHandler r).status = 200 ∧
    (healthHandler r).body.getField "status" = some (.s "OK") ∧
    ((healthHandler r).body.getField "message").isSome = true :=
  ⟨rfl, rfl, rfl⟩

/-- C9: `POST /api/instagram/download` only reads `qualityUrl` from the
body: two bodies agreeing on `qualityUrl` but with arbitrary `url` fields
produce the same action trace (same fetch, headers, status, body). -/
theorem igDownload_independent_of_url (u1 u2 qualityUrl : Option String)
    (fetchF : String → FetchOutcome) :
    igDownload u1 qualityUrl fetchF = igDownload u2 qualityUrl fetchF :=
  rfl

/-- C3: when the `url` field is missing or fails the platform check
(`ytdl.validateURL` for YouTube, substring `instagram.com` for Instagram),
both info endpoints answer 400 with an `error` field and never reach the
extractor, whatever the extractor outcome would have been. -/
theorem info_endpoints_invalid_url_400
    (validateURL : String → Bool) (renderMB : String → String)
    (urlY urlI : Option String)
    (exY : Except ErrObj YInfo) (exI : Except ErrObj (Option IgResult))
    (hY : urlY = none ∨ ∃ u, urlY = some u ∧ validateURL u = false)
    (hI : urlI = none ∨ ∃ u, urlI = some u ∧ jsIncludes u "instagram.com" = false) :
    ((youtubeInfo validateURL renderMB urlY exY).rsp.status = 400 ∧
     (youtubeInfo validateURL renderMB urlY exY).rsp.body.hasField "error" = true ∧
     (youtubeInfo validateURL renderMB urlY exY).extractorCalled = false) ∧
    ((instagramInfo urlI exI).rsp.status = 400 ∧
     (instagramInfo urlI exI).rsp.body.hasField "error" = true ∧
     (instagramInfo urlI exI).extractorCalled = false) := by
  constructor
  · rcases hY with h | ⟨u, rfl, hu⟩
    · subst h
      exact ⟨rfl, rfl, rfl⟩
    · simp [youtubeInfo, jsTruthy, hu, J.hasField, J.getField]
  · rcases hI with h | ⟨u, rfl, hu⟩
    · subst h
      exact ⟨rfl, rfl, rfl⟩
    · simp [instagramInfo, jsTruthy, hu, J.hasField, J.getField]

/-- Witness for C3 at concrete inputs: a validator that rejects the string,
and a URL without the `instagram.com` substring. -/
theorem info_endpoints_invalid_url_400_witness :
    ((youtubeInfo (fun _ => false) (fun _ => "") (some "not-a-url")
        (.ok ⟨⟨"t", [⟨"u"⟩], "1", ⟨"a"⟩⟩, []⟩)).rsp.status = 400 ∧
     (youtubeInfo (fun _ => false) (fun _ => "") (some "not-a-url")
        (.ok ⟨⟨"t", [⟨"u"⟩], "1", ⟨"a"⟩⟩, []⟩)).rsp.body.hasField "error" = true ∧
     (youtubeInfo (fun _ => false) (fun _ => "") (some "not-a-url")
        (.ok ⟨⟨"t", [⟨"u"⟩], "1", ⟨"a"⟩⟩, []⟩)).extractorCalled = false) ∧
    ((instagramInfo (some "https://example.com/x") (.ok none)).rsp.status = 400 ∧
     (instagramInfo (some "https://example.com/x") (.ok none)).rsp.body.hasField "error" = true ∧
     (instagramInfo (some "https://example.com/x") (.ok none)).extractorCalled = false) :=
  info_endpoints_invalid_url_400 (fun _ => false) (fun _ => "")
    (some "not-a-url") (some "https://example.com/x")
    (.ok ⟨⟨"t", [⟨"u"⟩], "1", ⟨"a"⟩⟩, []⟩) (.ok none)
    (Or.inr ⟨"not-a-url", rfl, rfl⟩)
    (Or.inr ⟨"https://example.com/x", rfl, by decide⟩)

/-- C5: when the extractor call throws, each info endpoint answers 500 with
an `error` field (plus `details`) and none of the success-payload fields
(`success`, `title`, `thumbnail`, `duration`, `author`, `qualities`). -/
theorem info_endpoints_extractor_throw_500
    (validateURL : String → Bool) (renderMB : String → String)
    (uY uI : String) (eY eI : ErrObj)
    (h1 : jsTruthy (some uY) = true) (h2 : validateURL uY = true)
    (h3 : jsTruthy (some uI) = true) (h4 : jsIncludes uI "instagram.com" = true) :
    ((youtubeInfo validateURL renderMB (some uY) (.error eY)).rsp.status = 500 ∧
     (youtubeInfo validateURL renderMB (some uY) (.error eY)).rsp.body.hasField "error" = true ∧
     (youtubeInfo validateURL renderMB (some uY) (.error eY)).rsp.body.hasField "success" = false ∧
     (youtubeInfo validateURL renderMB (some uY) (.error eY)).rsp.body.hasField "title" = false ∧
     (youtubeInfo validateURL renderMB (some uY) (.error eY)).rsp.body.hasField "thumbnail" = false ∧
     (youtubeInfo validateURL renderMB (some uY) (.error eY)).rsp.body.hasField "duration" = false ∧
     (youtubeInfo validateURL renderMB (some uY) (.error eY)).rsp.body.hasField "author" = false ∧
     (youtubeInfo validateURL renderMB (some uY) (.error eY)).rsp.body.hasField "qualities" = false) ∧
    ((instagramInfo (some uI) (.error eI)).rsp.status = 500 ∧
     (instagramInfo (some uI) (.error eI)).rsp.body.hasField "error" = true ∧
     (instagramInfo (some uI) (.error eI)).rsp.body.hasField "success" = false ∧
     (instagramInfo (some uI) (.error eI)).rsp.body.hasField "thumbnail" = false ∧
     (instagramInfo (some uI) (.error eI)).rsp.body.hasField "qualities" = false) := by
  constructor
  · simp [youtubeInfo, h1, h2, J.hasField, J.getField]
  · simp [instagramInfo, h3, h4, J.hasField, J.getField]

/-- Witness for C5: both extractors throw on concretely valid URLs. -/
theorem info_endpoints_extractor_throw_500_witness :
    ((youtubeInfo (fun _ => true) (fun _ => "") (some "https://youtu.be/x")
        (.error ⟨"boom"⟩)).rsp.status = 500 ∧
     (youtubeInfo (fun _ => true) (fun _ => "") (some "https://youtu.be/x")
        (.error ⟨"boom"⟩)).rsp.body.hasField "error" = true ∧
     (youtubeInfo (fun _ => true) (fun _ => "") (some "https://youtu.be/x")
        (.error ⟨"boom"⟩)).rsp.body.hasField "success" = false ∧
     (youtubeInfo (fun _ => true) (fun _ => "") (some "https://youtu.be/x")
        (.error ⟨"boom"⟩)).rsp.body.hasField "title" = false ∧
     (youtubeInfo (fun _ => true) (fun _ => "") (some "https://youtu.be/x")
        (.error ⟨"boom"⟩)).rsp.body.hasField "thumbnail" = false ∧
     (youtubeInfo (fun _ => true) (fun _ => "") (some "https://youtu.be/x")
        (.error ⟨"boom"⟩)).rsp.body.hasField "duration" = false ∧
     (youtubeInfo (fun _ => true) (fun _ => "") (some "https://youtu.be/x")
        (.error ⟨"boom"⟩)).rsp.body.hasField "author" = false ∧
     (youtubeInfo (fun _ => true) (fun _ => "") (some "https://youtu.be/x")
        (.error ⟨"boom"⟩)).rsp.body.hasField "qualities" = false) ∧
    ((instagramInfo (some "https://www.instagram.com/p/x") (.error ⟨"boom"⟩)).rsp.status = 500 ∧
     (instagramInfo (some "https://www.instagram.com/p/x")
        (.error ⟨"boom"⟩)).rsp.body.hasField "error" = true ∧
     (instagramInfo (some "https://www.instagram.com/p/x")
        (.error ⟨"boom"⟩)).rsp.body.hasField "success" = false ∧
     (instagramInfo (some "https://www.instagram.com/p/x")
        (.error ⟨"boom"⟩)).rsp.body.hasField "thumbnail" = false ∧
     (instagramInfo (some "https://www.instagram.com/p/x")
        (.error ⟨"boom"⟩)).rsp.body.hasField "qualities" = false) :=
  info_endpoints_extractor_throw_500 (fun _ => true) (fun _ => "")
    "https://youtu.be/x" "https://www.instagram.com/p/x" ⟨"boom"⟩ ⟨"boom"⟩
    (by decide) rfl (by decide) (by decide)

/-- C6: when `instagramGetUrl` yields no result object or a result without
a `url_list`, `POST /api/instagram/info` answers 404 with an `error` field
and no success payload. -/
theorem instagramInfo_no_stream_404
    (u : String) (ex : Except ErrObj (Option IgResult))
    (h1 : jsTruthy (some u) = true) (h2 : jsIncludes u "instagram.com" = true)
    (h3 : ex = .ok none ∨ ∃ t, ex = .ok (some { url_list := none, thumbnail := t })) :
    (instagramInfo (some u) ex).rsp.status = 404 ∧
    (instagramInfo (some u) ex).rsp.body.hasField "error" = true ∧
    (instagramInfo (some u) ex).rsp.body.hasField "success" = false ∧
    (instagramInfo (some u) ex).rsp.body.hasField "qualities" = false := by
  rcases h3 with rfl | ⟨t, rfl⟩ <;>
    simp [instagramInfo, h1, h2, J.hasField, J.getField]

/-- Witness for C6: a null extractor result on a concrete Instagram URL. -/
theorem instagramInfo_no_stream_404_witness :
    (instagramInfo (some "https://www.instagram.com/reel/x") (.ok none)).rsp.status = 404 ∧
    (instagramInfo (some "https://www.instagram.com/reel/x")
       (.ok none)).rsp.body.hasField "error" = true ∧
    (instagramInfo (some "https://www.instagram.com/reel/x")
       (.ok none)).rsp.body.hasField "success" = false ∧
    (instagramInfo (some "https://www.instagram.com/reel/x")
       (.ok none)).rsp.body.hasField "qualities" = false :=
  instagramInfo_no_stream_404 "https://www.instagram.com/reel/x" (.ok none)
    (by decide) (by decide) (Or.inl rfl)

/-- C7: on the successful path of `POST /api/youtube/download` the handler
sets `Content-Type: video/mp4` and a `Content-Disposition` attachment
header whose filename is the title with every character that is neither a
word character nor whitespace removed, followed by `.mp4`. -/
theorem ytDownload_success_headers
    (validateURL : String → Bool) (u : String) (itag : Option Int) (info : YInfo)
    (h1 : jsTruthy (some u) = true) (h2 : validateURL u = true) :
    hasHeader (ytDownload validateURL (some u) itag (.ok info))
      "Content-Type" "video/mp4" = true ∧
    hasHeader (ytDownload validateURL (some u) itag (.ok info))
      "Content-Disposition"
      ("attachment; filename=\"" ++
        String.mk (info.videoDetails.title.data.filter
          (fun c => jsWordChar c || jsWhitespace c)) ++ ".mp4\"") = true := by
  simp [ytDownload, hasHeader, sanitizeTitle, h1, h2]

/-- Witness for C7 on a concrete title with special characters. -/
theorem ytDownload_success_headers_witness :
    hasHeader (ytDownload (fun _ => true) (some "https://youtu.be/x") none
        (.ok ⟨⟨"My Video: Part 1!", [⟨"th"⟩], "10", ⟨"auth"⟩⟩, []⟩))
      "Content-Type" "video/mp4" = true ∧
    hasHeader (ytDownload (fun _ => true) (some "https://youtu.be/x") none
        (.ok ⟨⟨"My Video: Part 1!", [⟨"th"⟩], "10", ⟨"auth"⟩⟩, []⟩))
      "Content-Disposition"
      ("attachment; filename=\"" ++
        String.mk (("My Video: Part 1!" : String).data.filter
          (fun c => jsWordChar c || jsWhitespace c)) ++ ".mp4\"") = true :=
  ytDownload_success_headers (fun _ => true) "https://youtu.be/x" none
    ⟨⟨"My Video: Part 1!", [⟨"th"⟩], "10", ⟨"auth"⟩⟩, []⟩ (by decide) rfl

/-- C4 counterexample: the `catch` of `POST /api/instagram/download` does
NOT check `res.headersSent` — run with headers already sent it still writes
the 500 JSON body, so not every error-handling path guards the write. -/
theorem igCatchHandler_writes_json_despite_headers_sent :
    (igCatchHandler true { message := "stream failure" }).any Act.isJson = true ∧
    noJsonAfterSend true (igCatchHandler true { message := "stream failure" }) = false :=
  ⟨rfl, rfl⟩

/-- C4 (amended): both error paths of `POST /api/youtube/download` (the
stream `error` handler and the `catch`) write the 500 JSON only when
headers are unsent, and write nothing once they are sent; the
`POST /api/instagram/download` catch has no such guard, but every error it
can receive is raised before any byte of the response is sent, so no
complete run of that endpoint writes a JSON error after bytes started. -/
theorem download_endpoints_no_json_after_headers_sent :
    (∀ e : ErrObj, ytStreamErrorHandler true e = []) ∧
    (∀ e : ErrObj, ytCatchHandler true e = []) ∧
    (∀ (hs : Bool) (e : ErrObj), noJsonAfterSend hs (ytStreamErrorHandler hs e) = true) ∧
    (∀ (hs : Bool) (e : ErrObj), noJsonAfterSend hs (ytCatchHandler hs e) = true) ∧
    (∀ (url qualityUrl : Option String) (fetchF : String → FetchOutcome),
      noJsonAfterSend false (igDownload url qualityUrl fetchF) = true) := by
  refine ⟨fun e => rfl, fun e => rfl, ?_, ?_, ?_⟩
  · intro hs e
    cases hs <;> simp [ytStreamErrorHandler, noJsonAfterSend]
  · intro hs e
    cases hs <;> simp [ytCatchHandler, noJsonAfterSend]
  · intro url qualityUrl fetchF
    by_cases hq : jsTruthy qualityUrl = true
    · simp only [igDownload, hq, Bool.not_true, Bool.false_eq_true, if_false]
      cases fetchF (qualityUrl.getD "") with
      | fthrow e => simp [igCatchHandler, noJsonAfterSend]
      | fresp ok buffer =>
        cases ok with
        | false => simp [igCatchHandler, noJsonAfterSend]
        | true =>
          cases buffer with
          | error e => simp [igCatchHandler, noJsonAfterSend]
          | ok bytes => simp [noJsonAfterSend]
    · simp only [Bool.not_eq_true] at hq
      simp [igDownload, hq, noJsonAfterSend]

/-- Positional shape of the Instagram qualities array: entry `i` carries
URL `us[i]` and the label determined only by the index. -/
theorem igQualitiesJ_getElem (us : List String) (i : Nat) (ui : String)
    (h : us[i]? = some ui) :
    (igQualitiesJ us)[i]? =
      some (.obj [("url", .s ui), ("quality", .s (igLabel i)),
                  ("format", .s "mp4"), ("size", .s "Unknown")]) := by
  simp [igQualitiesJ, List.getElem?_map, List.getElem?_enum, h]

/-- C8: on the success path of `POST /api/instagram/info`, the `qualities`
field is exactly one entry per URL of the extractor's `url_list`, in order,
each labelled purely by its position (`1080p (Full HD)`, `720p (HD)`, then
`480p` for every later index) with `format` `mp4` and `size` `Unknown`. -/
theorem instagramInfo_qualities_positional
    (u : String) (r : IgResult) (us : List String)
    (h1 : jsTruthy (some u) = true) (h2 : jsIncludes u "instagram.com" = true)
    (h3 : r.url_list = some us) :
    (instagramInfo (some u) (.ok (some r))).rsp.status = 200 ∧
    (instagramInfo (some u) (.ok (some r))).rsp.body.getField "qualities"
      = some (.arr (igQualitiesJ us)) ∧
    (igQualitiesJ us).length = us.length ∧
    (∀ (i : Nat) (ui : String), us[i]? = some ui →
      (igQualitiesJ us)[i]? =
        some (.obj [("url", .s ui), ("quality", .s (igLabel i)),
                    ("format", .s "mp4"), ("size", .s "Unknown")])) := by
  refine ⟨?_, ?_, ?_, fun i ui h => igQualitiesJ_getElem us i ui h⟩
  · simp [instagramInfo, h1, h2, h3]
  · cases hmatch : igThumbField r us <;>
      simp [instagramInfo, h1, h2, h3, hmatch, J.getField, List.lookup]
  · simp [igQualitiesJ]

/-- Witness for C8 on a four-URL `url_list`. -/
theorem instagramInfo_qualities_positional_witness :
    (instagramInfo (some "https://www.instagram.com/p/w")
       (.ok (some ⟨some ["a", "b", "c", "d"], some "t"⟩))).rsp.status = 200 ∧
    (instagramInfo (some "https://www.instagram.com/p/w")
       (.ok (some ⟨some ["a", "b", "c", "d"], some "t"⟩))).rsp.body.getField "qualities"
      = some (.arr (igQualitiesJ ["a", "b", "c", "d"])) ∧
    (igQualitiesJ ["a", "b", "c", "d"]).length = (["a", "b", "c", "d"] : List String).length ∧
    (∀ (i : Nat) (ui : String), (["a", "b", "c", "d"] : List String)[i]? = some ui →
      (igQualitiesJ ["a", "b", "c", "d"])[i]? =
        some (.obj [("url", .s ui), ("quality", .s (igLabel i)),
                    ("format", .s "mp4"), ("size", .s "Unknown")])) :=
  instagramInfo_qualities_positional "https://www.instagram.com/p/w"
    ⟨some ["a", "b", "c", "d"], some "t"⟩ ["a", "b", "c", "d"]
    (by decide) (by decide) rfl

/-! ## C2: the dedup filter keeps exactly first occurrences, in order -/

/-- Spec-side dedup for comparison with `uniqueQualities` (the refinement
target, written from the spec's words): walk the list once, keep an
element iff its label was not seen before, first occurrence wins. -/
def specFirstOccurrenceDedup : List Quality → List String → List Quality
  | [], _ => []
  | x :: xs, seen =>
    if x.quality ∈ seen then specFirstOccurrenceDedup xs seen
    else x :: specFirstOccurrenceDedup xs (x.quality :: seen)

/-- `findIdx` skips a prefix on which the predicate is everywhere false. -/
theorem findIdx_append_of_forall_false (p : Quality → Bool) (pre l : List Quality)
    (h : ∀ y ∈ pre, p y = false) :
    (pre ++ l).findIdx p = pre.length + l.findIdx p := by
  induction pre with
  | nil => simp
  | cons a pre ih =>
    have ha : p a = false := h a (List.mem_cons_self a pre)
    have := ih (fun y hy => h y (List.mem_cons_of_mem a hy))
    simp [List.findIdx_cons, ha, this]
    omega

/-- `findIdx` lands inside a prefix containing a witness of the predicate. -/
theorem findIdx_append_lt (p : Quality → Bool) (pre l : List Quality)
    (h : ∃ y ∈ pre, p y = true) :
    (pre ++ l).findIdx p < pre.length := by
  induction pre with
  | nil => simp at h
  | cons a pre ih =>
    cases ha : p a with
    | true => simp [List.findIdx_cons, ha]
    | false =>
      obtain ⟨y, hy, hpy⟩ := h
      rcases List.mem_cons.mp hy with rfl | hy'
      · rw [ha] at hpy; exact absurd hpy (by simp)
      · have := ih ⟨y, hy', hpy⟩
        simp [List.findIdx_cons, ha]
        omega

/-- The JS filter over a suffix, with the processed prefix generalized:
`seen` holds exactly the labels occurring in the prefix `pre`. -/
theorem uniqueQualities_general (l : List Quality) :
    ∀ (pre : List Quality) (seen : List String),
    (∀ s, s ∈ seen ↔ ∃ q ∈ pre, q.quality = s) →
    ((List.enumFrom pre.length l).filter
      (fun p => (pre ++ l).findIdx (fun r => r.quality == p.2.quality) == p.1)).map Prod.snd
    = specFirstOccurrenceDedup l seen := by
  induction l with
  | nil => intro pre seen _; simp [specFirstOccurrenceDedup]
  | cons x xs ih =>
    intro pre seen hseen
    have ecut : pre ++ x :: xs = (pre ++ [x]) ++ xs := List.append_cons pre x xs
    have elen : (pre ++ [x]).length = pre.length + 1 := by simp
    by_cases hx : x.quality ∈ seen
    · obtain ⟨q, hq, hqq⟩ := (hseen _).1 hx
      have hlt : (pre ++ x :: xs).findIdx (fun r => r.quality == x.quality) < pre.length :=
        findIdx_append_lt _ pre (x :: xs) ⟨q, hq, by simp [hqq]⟩
      have hcond : ((pre ++ x :: xs).findIdx (fun r => r.quality == x.quality)
          == pre.length) = false :=
        beq_eq_false_iff_ne.mpr (Nat.ne_of_lt hlt)
      have hseen' : ∀ s, s ∈ seen ↔ ∃ q ∈ pre ++ [x], q.quality = s := by
        intro s
        constructor
        · intro hs
          obtain ⟨q', hq', hq's⟩ := (hseen s).1 hs
          exact ⟨q', List.mem_append_left _ hq', hq's⟩
        · rintro ⟨q', hq', rfl⟩
          rcases List.mem_append.mp hq' with h' | h'
          · exact (hseen _).2 ⟨q', h', rfl⟩
          · rw [List.mem_singleton.mp h']; exact hx
      have tail := ih (pre ++ [x]) seen hseen'
      rw [elen, ← ecut] at tail
      simp only [List.enumFrom, List.filter_cons, hcond, specFirstOccurrenceDedup, if_pos hx]
      exact tail
    · have hpre : ∀ y ∈ pre, (y.quality == x.quality) = false := by
        intro y hy
        cases hv : (y.quality == x.quality) with
        | false => rfl
        | true =>
          exact absurd ((hseen _).2 ⟨y, hy, beq_iff_eq.mp hv⟩) hx
      have hfind : (pre ++ x :: xs).findIdx (fun r => r.quality == x.quality) = pre.length := by
        rw [findIdx_append_of_forall_false _ pre (x :: xs) hpre]
        simp [List.findIdx_cons]
      have hcond : ((pre ++ x :: xs).findIdx (fun r => r.quality == x.quality)
          == pre.length) = true := by
        rw [hfind]; simp
      have hseen' : ∀ s, s ∈ x.quality :: seen ↔ ∃ q ∈ pre ++ [x], q.quality = s := by
        intro s
        constructor
        · intro hs
          rcases List.mem_cons.mp hs with rfl | hs'
          · exact ⟨x, List.mem_append_right _ (List.mem_singleton_self x), rfl⟩
          · obtain ⟨q', hq', hq's⟩ := (hseen s).1 hs'
            exact ⟨q', List.mem_append_left _ hq', hq's⟩
        · rintro ⟨q', hq', rfl⟩
          rcases List.mem_append.mp hq' with h' | h'
          · exact List.mem_cons_of_mem _ ((hseen _).2 ⟨q', h', rfl⟩)
          · rw [List.mem_singleton.mp h']; exact List.mem_cons_self _ _
      have tail := ih (pre ++ [x]) (x.quality :: seen) hseen'
      rw [elen, ← ecut] at tail
      simp only [List.enumFrom, List.filter_cons, hcond, specFirstOccurrenceDedup, if_neg hx,
        List.map_cons]
      exact congrArg (x :: ·) tail

/-- C2: the dedup filter of `/api/youtube/info` keeps, for every list,
exactly the first occurrence of each distinct quality label (it equals the
one-pass first-occurrence dedup), and its output is a sublist of the
input, so survivors keep their relative order. -/
theorem uniqueQualities_keeps_first_occurrences :
    (∀ l : List Quality, uniqueQualities l = specFirstOccurrenceDedup l []) ∧
    (∀ l : List Quality, List.Sublist (uniqueQualities l) l) := by
  constructor
  · intro l
    have h := uniqueQualities_general l [] [] (by simp)
    simpa [uniqueQualities, List.enum] using h
  · intro l
    have h1 : List.Sublist
        (l.enum.filter
          (fun p => l.findIdx (fun r => r.quality == p.2.quality) == p.1)) l.enum :=
      List.filter_sublist _
    have h2 := h1.map Prod.snd
    rw [List.enum_map_snd] at h2
    exact h2

/-! ## C1: the quality sort is descending by parsed resolution -/

/-- Inserting keeps the multiset: `insertDesc x l` is a permutation of
`x :: l`. -/
theorem insertDesc_perm (x : Quality) (l : List Quality) :
    List.Perm (insertDesc x l) (x :: l) := by
  induction l with
  | nil => exact List.Perm.refl _
  | cons y ys ih =>
    by_cases h : getResolution y ≤ getResolution x
    · simp [insertDesc, h]
    · simp only [insertDesc, if_neg h]
      exact (ih.cons y).trans (List.Perm.swap x y ys)

/-- The sort permutes its input. -/
theorem sortQualities_perm (l : List Quality) :
    List.Perm (sortQualities l) l := by
  induction l with
  | nil => exact List.Perm.refl _
  | cons x xs ih => exact (insertDesc_perm x _).trans (ih.cons x)

/-- Inserting into a descending-by-resolution list keeps it descending. -/
theorem insertDesc_pairwise (x : Quality) (l : List Quality)
    (h : l.Pairwise (fun a b => getResolution b ≤ getResolution a)) :
    (insertDesc x l).Pairwise (fun a b => getResolution b ≤ getResolution a) := by
  induction l with
  | nil => simp [insertDesc]
  | cons y ys ih =>
    obtain ⟨hy, hys⟩ := List.pairwise_cons.mp h
    by_cases hc : getResolution y ≤ getResolution x
    · simp only [insertDesc, if_pos hc]
      refine List.pairwise_cons.mpr ⟨?_, h⟩
      intro z hz
      rcases List.mem_cons.mp hz with rfl | hz1
      · exact hc
      · exact le_trans (hy z hz1) hc
    · simp only [insertDesc, if_neg hc]
      refine List.pairwise_cons.mpr ⟨?_, ih hys⟩
      intro z hz
      rcases List.mem_cons.mp ((insertDesc_perm x ys).mem_iff.mp hz) with rfl | hz2
      · exact le_of_lt (lt_of_not_le hc)
      · exact hy z hz2

/-- The sort output is descending by `getResolution`. -/
theorem sortQualities_pairwise (l : List Quality) :
    (sortQualities l).Pairwise (fun a b => getResolution b ≤ getResolution a) := by
  induction l with
  | nil => simp [sortQualities]
  | cons x xs ih => exact insertDesc_pairwise x _ ih

/-- C1: the quality sort of `/api/youtube/info` reorders every list
descending by the integer the regex `(\d+)p` extracts from the label
(labels without such a number get resolution 0, hence land after every
positive resolution); on labels `720p`, `360p`, `1080p` and the
number-free `audio only` it yields `1080p, 720p, 360p` then the
unparsable one last. -/
theorem sortQualities_descending_by_parsed_resolution :
    (∀ l : List Quality, List.Perm (sortQualities l) l) ∧
    (∀ l : List Quality, (sortQualities l).Pairwise
      (fun a b => getResolution b ≤ getResolution a)) ∧
    getResolution ⟨18, "720p", "mp4", "Unknown", true, true⟩ = 720 ∧
    getResolution ⟨134, "360p", "mp4", "Unknown", true, true⟩ = 360 ∧
    getResolution ⟨137, "1080p", "mp4", "Unknown", true, true⟩ = 1080 ∧
    resMatch ("audio only".data) = none ∧
    getResolution ⟨140, "audio only", "mp4", "Unknown", true, false⟩ = 0 ∧
    sortQualities
      [⟨18, "720p", "mp4", "Unknown", true, true⟩,
       ⟨134, "360p", "mp4", "Unknown", true, true⟩,
       ⟨137, "1080p", "mp4", "Unknown", true, true⟩,
       ⟨140, "audio only", "mp4", "Unknown", true, false⟩]
    = [⟨137, "1080p", "mp4", "Unknown", true, true⟩,
       ⟨18, "720p", "mp4", "Unknown", true, true⟩,
       ⟨134, "360p", "mp4", "Unknown", true, true⟩,
       ⟨140, "audio only", "mp4", "Unknown", true, false⟩] :=
  ⟨sortQualities_perm, sortQualities_pairwise,
   by decide, by decide, by decide, by decide, by decide, by decide⟩
